import Mathlib

/-!
Verification of the mk10646.py BDF font merger.

The development shallowly embeds the program:

* bitmap rows are modelled at the byte level: a row is a `List Nat` of byte
  values (the program stores rows as hexadecimal text and converts with
  `decode('hex')` / `encode('hex')`, a bijection between valid hex strings and
  byte strings, which we abstract away at the glyph level);
* the glyph record manipulated by the transcoder and the merger is `Glyph`
  (fields mirror `BDFGlyphParser.__init__`; `swidth`/`dwidth` carry the two
  integers of a SWIDTH/DWIDTH line, `bbx` the four integers of a BBX line);
* the line-level parse state of a glyph block is `GlyphParser` (rows kept as
  the raw text lines the parser captured, exactly as the program appends them);
* Python integers are `Int`, Python `//` is `Int.fdiv` (floor division);
* fallible Python code (assert, int(), unknown commands, codec lookup) is
  `Except PyErr`.
-/

namespace Mk10646

/-- Python exception classes relevant to the program.  In Python 2,
`LookupError` (raised by the codec registry for an unregistered codec name)
is not a subclass of `UnicodeError`, and `UnicodeError` is a subclass of
`ValueError`. -/
inductive PyErr where
  | valueError
  | lookupError
  | assertionError
  | indexError
  | unicodeError
deriving DecidableEq

/- ===== small Python string helpers (structural, kernel-evaluable) ===== -/

/-- `line.partition(' ')` on char lists: text before the first space, and the
remainder after it (empty remainder when there is no space). -/
def partAux : List Char → List Char × List Char
  | [] => ([], [])
  | c :: rest =>
    if c = ' ' then ([], rest)
    else (c :: (partAux rest).1, (partAux rest).2)

/-- `(cmd, args) = line.partition(' ')` keeping only the two useful parts. -/
def partitionSpace (line : String) : String × String :=
  (String.mk (partAux line.data).1, String.mk (partAux line.data).2)

/-- ASCII lower-casing of one character, as `str.lower` does for the command
names appearing in BDF files. -/
def pyLowerChar (c : Char) : Char :=
  if 65 ≤ c.toNat && c.toNat ≤ 90 then Char.ofNat (c.toNat + 32) else c

/-- `s.lower()` for ASCII command names. -/
def pyLower (s : String) : String := String.mk (s.data.map pyLowerChar)

/-- `s.split(' ')` with an explicit separator: splitting the empty string
yields one empty field, like Python. -/
def splitSpaceAux : List Char → List Char → List (List Char)
  | acc, [] => [acc.reverse]
  | acc, c :: rest =>
    if c = ' ' then acc.reverse :: splitSpaceAux [] rest
    else splitSpaceAux (c :: acc) rest

def pySplitSpace (s : String) : List String :=
  (splitSpaceAux [] s.data).map (fun cs => String.mk cs)

/-- Decimal digit value of a character. -/
def digitVal (c : Char) : Option Nat :=
  if 48 ≤ c.toNat && c.toNat ≤ 57 then some (c.toNat - 48) else none

/-- Accumulating decimal reader; `none` accumulator means no digit seen yet,
so the empty string parses to `none` (Python `int('')` raises ValueError). -/
def digitsVal : List Char → Option Nat → Option Nat
  | [], acc => acc
  | c :: rest, acc =>
    match digitVal c, acc with
    | some d, some n => digitsVal rest (some (10 * n + d))
    | some d, none => digitsVal rest (some d)
    | none, _ => none

/-- Python `int(s)` restricted to the optionally-negated decimal literals the
program feeds it (surrounding whitespace and a leading plus are not
exercised by the claims). -/
def pyInt (s : String) : Option Int :=
  match s.data with
  | '-' :: rest => (digitsVal rest none).map (fun n => -(n : Int))
  | ds => (digitsVal ds none).map (fun n => (n : Int))

/-- `map(int, args.split(' '))`, failing if any field is not an integer. -/
def pyInts (s : String) : Option (List Int) :=
  (pySplitSpace s).mapM pyInt

/-- `pfx` is a prefix of the character list. -/
def charsPfx : List Char → List Char → Bool
  | [], _ => true
  | _ :: _, [] => false
  | c :: cs, d :: ds => c == d && charsPfx cs ds

/-- `s.startswith(p)`. -/
def strStarts (s p : String) : Bool := charsPfx p.data s.data

/- ===== the bit-level transcoder (shrink_bits / expand_bits) ===== -/

/-- The nibble built for one input byte by `shrink_bits`:
`x1 = 0; if b & 0xc0: x1 |= 0x8; if b & 0x30: x1 |= 0x4;
 if b & 0x0c: x1 |= 0x2; if b & 0x03: x1 |= 0x1`. -/
def shrink_nibble (b : Nat) : Nat :=
  Nat.lor (Nat.lor (Nat.lor
    (if Nat.land b 0xc0 ≠ 0 then (8 : Nat) else 0)
    (if Nat.land b 0x30 ≠ 0 then (4 : Nat) else 0))
    (if Nat.land b 0x0c ≠ 0 then (2 : Nat) else 0))
    (if Nat.land b 0x03 ≠ 0 then (1 : Nat) else 0)

/-- The accumulator loop of `shrink_bits`: `x0` is the pending nibble
(`None` when the next nibble starts a new output byte); a trailing pending
nibble is flushed as `chr(x0 << 4)`. -/
def shrinkAux : Option Nat → List Nat → List Nat
  | none, [] => []
  | some x0, [] => [Nat.shiftLeft x0 4]
  | none, b :: rest => shrinkAux (some (shrink_nibble b)) rest
  | some x0, b :: rest =>
      Nat.lor (Nat.shiftLeft x0 4) (shrink_nibble b) :: shrinkAux none rest

/-- `shrink_bits` of mk10646.py, on a row of byte values. -/
def shrink_bits (bs : List Nat) : List Nat := shrinkAux none bs

/-- The inner loop of `expand_bits`:
`for i in (b >> 4, b & 0xf): x = 0; if b & 8: x |= 0xc0; ...; a += chr(x)`.
Note the tests read `b`, the whole input byte, not the loop variable `i`,
exactly as the source does. -/
def expand_pair (b : Nat) : List Nat :=
  ([Nat.shiftRight b 4, Nat.land b 0xf] : List Nat).map (fun _i =>
    Nat.lor (Nat.lor (Nat.lor
      (if Nat.land b 8 ≠ 0 then (0xc0 : Nat) else 0)
      (if Nat.land b 4 ≠ 0 then (0x30 : Nat) else 0))
      (if Nat.land b 2 ≠ 0 then (0x0c : Nat) else 0))
      (if Nat.land b 1 ≠ 0 then (0x03 : Nat) else 0))

/-- `expand_bits` of mk10646.py, on a row of byte values. -/
def expand_bits : List Nat → List Nat
  | [] => []
  | b :: rest => expand_pair b ++ expand_bits rest

/- ===== spec-side description of narrowing (for claim C7) ===== -/

/-- Modelled from the spec's words, for comparison with `shrink_nibble`:
output bit `k` is the logical OR of input bits `2k+1` and `2k`. -/
def quad_or (b k : Nat) : Nat :=
  if b.testBit (2 * k + 1) || b.testBit (2 * k) then 1 else 0

/-- Modelled from the spec's words: the four quadrant ORs of one byte,
assembled with bit 3 from the 7-6 quadrant down to bit 0 from the 1-0
quadrant. -/
def nibble_spec (b : Nat) : Nat :=
  8 * quad_or b 3 + 4 * quad_or b 2 + 2 * quad_or b 1 + quad_or b 0

/-- Modelled from the spec's words: pack nibbles pairwise, first of a pair in
the high four bits, second in the low four bits; a trailing unpaired nibble
goes alone into the high bits of a final byte. -/
def pack_spec : List Nat → List Nat
  | [] => []
  | [x] => [16 * x]
  | x :: y :: rest => (16 * x + y) :: pack_spec rest

/-- Modelled from the spec's words: the whole per-row narrowing transform. -/
def shrink_row_spec (row : List Nat) : List Nat :=
  pack_spec (row.map nibble_spec)

/- ===== the glyph record and the transcoder entry point ===== -/

/-- The four integers of a BBX line. -/
structure BBX where
  w : Int
  h : Int
  xoff : Int
  yoff : Int
deriving DecidableEq

/-- A fully parsed glyph as the merger and the transcoder see it: all fields
present, bitmap rows as byte lists (the hex text layer is abstracted). -/
structure Glyph where
  gname : String
  encoding : Int
  swidth : Int × Int
  dwidth : Int × Int
  bbx : BBX
  wide : Bool
  bits : List (List Nat)
  changed : Bool
deriving DecidableEq

/-- `BDFGlyphParser.adjust(self, wide)`.  The source ends every call with
`self.changed = True; self.wide = wide` unconditionally, after the two
conditional branches; those trailing assignments are folded into each
branch here. -/
def Glyph.adjust (g : Glyph) (wide : Bool) : Glyph :=
  if g.wide && !wide then
    { g with
      swidth := (Int.fdiv g.swidth.1 2, g.swidth.2),
      dwidth := (Int.fdiv g.dwidth.1 2, g.dwidth.2),
      bbx := { g.bbx with w := Int.fdiv g.bbx.w 2 },
      bits := g.bits.map shrink_bits,
      changed := true, wide := wide }
  else if !g.wide && wide then
    { g with
      swidth := (g.swidth.1 * 2, g.swidth.2),
      dwidth := (g.dwidth.1 * 2, g.dwidth.2),
      bbx := { g.bbx with w := g.bbx.w * 2 },
      bits := g.bits.map expand_bits,
      changed := true, wide := wide }
  else
    { g with changed := true, wide := wide }

/- ===== the per-code-point merge loop of main ===== -/

/-- The `ok` test of the merge loop in `main`:
`ok = True; if wid == 'F' or wid == 'W': ok = glyph.wide;
 elif wid == 'H' or wid == 'Na': ok = not glyph.wide;
 elif wid == 'A': ok = (glyph.wide == ambwide)`.
`wid` is `CHARWIDTH.get(e)`, hence an `Option String`. -/
def glyph_ok (ambwide : Bool) (wid : Option String) (g : Glyph) : Bool :=
  if wid == some ("F") || wid == some ("W") then g.wide
  else if wid == some ("H") || wid == some ("Na") then !g.wide
  else if wid == some ("A") then g.wide == ambwide
  else true

/-- The scan of `for glyph in glyphs[e]: ... if ok: dump; break`: the first
candidate passing `glyph_ok`, if any. -/
def first_ok (ambwide : Bool) (wid : Option String) : List Glyph → Option Glyph
  | [] => none
  | g :: rest =>
    if glyph_ok ambwide wid g then some g else first_ok ambwide wid rest

/-- One code point of the merge loop of `main`.  Result: `some (warned, g)`
where `g` is the glyph that is dumped and `warned` tells whether the
warning-and-repair `else:` branch ran.  When no candidate passes, Python's
`for ... else:` runs with the loop variable still bound to the LAST element
of the candidate list, so the repaired glyph is
`adjust` of the last candidate with target `wid in ('F','W')`.
(`none` only for an empty candidate list, which `main` never builds.) -/
def merge_codepoint (ambwide : Bool) (wid : Option String)
    (cands : List Glyph) : Option (Bool × Glyph) :=
  match first_ok ambwide wid cands with
  | some g => some (false, g)
  | none =>
    match cands.getLast? with
    | some g => some (true, g.adjust (wid == some ("F") || wid == some ("W")))
    | none => none

/-- Modelled from the spec's words, for comparison with `glyph_ok`: the width
requirement a category imposes (`none` = no requirement). -/
def required_wide (ambwide : Bool) (wid : Option String) : Option Bool :=
  if wid == some ("F") || wid == some ("W") then some true
  else if wid == some ("H") || wid == some ("Na") then some false
  else if wid == some ("A") then some ambwide
  else none

/- ===== the glyph-block parse state machine (BDFGlyphParser) ===== -/

/-- The mutable state of `BDFGlyphParser`: the glyph accumulator during a
STARTCHAR..ENDCHAR block.  `bitmapMode` is the source's `_bitmap` flag;
`bits` holds the raw captured lines exactly as appended. -/
structure GlyphParser where
  gname : String
  encoding : Option Int
  swidth : Option (List Int)
  dwidth : Option (List Int)
  bbx : Option (List Int)
  wide : Bool
  bits : List String
  changed : Bool
  bitmapMode : Bool
deriving DecidableEq

/-- `BDFGlyphParser.__init__(self, name)`. -/
def GlyphParser.init (name : String) : GlyphParser :=
  { gname := name, encoding := none, swidth := none, dwidth := none,
    bbx := none, wide := false, bits := [], changed := false,
    bitmapMode := false }

/-- `do_bitmap`: `assert not self._bitmap; self._bitmap = True`.  (The
assertion is kept although `feed` can only reach this handler with the flag
still clear.) -/
def GlyphParser.do_bitmap (s : GlyphParser) : Except PyErr GlyphParser :=
  if s.bitmapMode then Except.error PyErr.assertionError
  else Except.ok { s with bitmapMode := true }

/-- `do_encoding`: `self.encoding = int(args)`. -/
def GlyphParser.do_encoding (s : GlyphParser) (args : String) :
    Except PyErr GlyphParser :=
  match pyInt args with
  | some n => Except.ok { s with encoding := some n }
  | none => Except.error PyErr.valueError

/-- `do_swidth`: `self.swidth = map(int, args.split(' '))`. -/
def GlyphParser.do_swidth (s : GlyphParser) (args : String) :
    Except PyErr GlyphParser :=
  match pyInts args with
  | some xs => Except.ok { s with swidth := some xs }
  | none => Except.error PyErr.valueError

/-- `do_dwidth`: `self.dwidth = map(int, args.split(' '))`. -/
def GlyphParser.do_dwidth (s : GlyphParser) (args : String) :
    Except PyErr GlyphParser :=
  match pyInts args with
  | some xs => Except.ok { s with dwidth := some xs }
  | none => Except.error PyErr.valueError

/-- `do_bbx`: `self.bbx = map(int, args.split(' '));
self.wide = (self.bbx[0] == self.bbx[1])`.  Fewer than two parsed integers
would raise an IndexError on the subscripts. -/
def GlyphParser.do_bbx (s : GlyphParser) (args : String) :
    Except PyErr GlyphParser :=
  match pyInts args with
  | some (a :: b :: rest) =>
      Except.ok { s with bbx := some (a :: b :: rest), wide := a == b }
  | some _ => Except.error PyErr.indexError
  | none => Except.error PyErr.valueError

/-- `BDFGlyphParser.feed(self, line)`: while `_bitmap` is set, EVERY line is
appended verbatim to `bits`; otherwise the line is dispatched through
`BDFParserBase.feed` by the lower-cased first token (`do_` + cmd), an
unrecognized command raising ValueError.  (The source also computes a
stripped partition of the line before the `_bitmap` test, but never uses
it; `main` feeds lines already stripped.) -/
def GlyphParser.feed (s : GlyphParser) (line : String) :
    Except PyErr GlyphParser :=
  if s.bitmapMode then Except.ok { s with bits := s.bits ++ [line] }
  else
    match pyLower (partitionSpace line).1 with
    | "bitmap" => s.do_bitmap
    | "encoding" => s.do_encoding (partitionSpace line).2
    | "swidth" => s.do_swidth (partitionSpace line).2
    | "dwidth" => s.do_dwidth (partitionSpace line).2
    | "bbx" => s.do_bbx (partitionSpace line).2
    | _ => Except.error PyErr.valueError

/- ===== the properties block of BDFFileParser (for claim C10) ===== -/

/-- A property value: `int` or quote-stripped string. -/
inductive PropVal where
  | pint (n : Int)
  | pstr (v : String)
deriving DecidableEq

/-- Value kind of each recognized property name (the `prop_*` table of
`BDFFileParser`). -/
inductive PropKind where
  | kint
  | kstr
deriving DecidableEq

def prop_table (k : String) : Option PropKind :=
  match k with
  | "font_ascent" => some PropKind.kint
  | "font_descent" => some PropKind.kint
  | "copyright" => some PropKind.kstr
  | "fontname_registry" => some PropKind.kstr
  | "foundry" => some PropKind.kstr
  | "family_name" => some PropKind.kstr
  | "weight_name" => some PropKind.kstr
  | "slant" => some PropKind.kstr
  | "setwidth_name" => some PropKind.kstr
  | "add_style_name" => some PropKind.kstr
  | "pixel_size" => some PropKind.kint
  | "point_size" => some PropKind.kint
  | "resolution_x" => some PropKind.kint
  | "resolution_y" => some PropKind.kint
  | "spacing" => some PropKind.kstr
  | "average_width" => some PropKind.kint
  | "charset_registry" => some PropKind.kstr
  | "charset_encoding" => some PropKind.kstr
  | "default_char" => some PropKind.kint
  | _ => none

/-- The slice of `BDFFileParser` state that the properties block touches:
`props` (None before STARTPROPERTIES) and the `_prop` mode flag. -/
structure FilePropsState where
  props : Option (List (String × PropVal))
  propMode : Bool
deriving DecidableEq

/-- Python `==` between a `str` and a `(key, value)` tuple: always False.
This is exactly what `cmd in self.props` tests element-wise, since
`self.props` is a list of pairs, so the membership test can never succeed. -/
def pyEqStrTuple (_cmd : String) (_p : String × PropVal) : Bool := false

/-- First char is a double quote (`v.startswith('"')`). -/
def startsWithQuote (v : String) : Bool :=
  match v.data with
  | c :: _ => c == '"'
  | [] => false

/-- Last char is a double quote (`v.endswith('"')`). -/
def endsWithQuote (v : String) : Bool :=
  match v.data.getLast? with
  | some c => c == '"'
  | none => false

/-- `v[1:-1]` for the quoted strings that pass both quote assertions. -/
def stripQuotes (v : String) : String :=
  String.mk ((v.data.drop 1).dropLast)

/-- `BDFFileParser.do_unknown(self, cmd, args)` in the properties path:
`if self._prop: assert cmd not in self.props` then dispatch to
`prop_<cmd.lower()>`, which is `_parse_int` or `_parse_str` per the table
(`_parse_str` asserts surrounding double quotes and strips them); an
unknown property name raises ValueError, and outside the properties mode
the base class raises ValueError for the unknown command. -/
def do_unknown_file (st : FilePropsState) (cmd args : String) :
    Except PyErr FilePropsState :=
  if st.propMode then
    match st.props with
    | none => Except.error PyErr.assertionError
    | some ps =>
      if ps.any (pyEqStrTuple cmd) then Except.error PyErr.assertionError
      else
        match prop_table (pyLower cmd) with
        | some PropKind.kint =>
          match pyInt args with
          | some n =>
              Except.ok { st with props := some (ps ++ [(pyLower cmd, PropVal.pint n)]) }
          | none => Except.error PyErr.valueError
        | some PropKind.kstr =>
          if startsWithQuote args && endsWithQuote args then
            Except.ok
              { st with props := some (ps ++ [(pyLower cmd, PropVal.pstr (stripQuotes args))]) }
          else Except.error PyErr.assertionError
        | none => Except.error PyErr.valueError
  else Except.error PyErr.valueError

/- ===== charset selection in main (for claim C9) ===== -/

/-- Which code-point mapper `main` ends up with. -/
inductive CodecChoice where
  | jisx0201
  | jisx0208
  | pycodec (codec : String)
deriving DecidableEq

/-- `''.decode(codec)`: with a registered codec, decoding the empty string
succeeds; with an unregistered codec name the Python 2 codec registry
raises LookupError.  The registry itself is external state, passed in as a
predicate. -/
def pyDecodeEmpty (registry : String → Bool) (codec : String) :
    Except PyErr Unit :=
  if registry codec then Except.ok () else Except.error PyErr.lookupError

/-- The codec-selection block of `main`:
prefix tests for JISX0201/JISX0208, otherwise
`try: ''.decode(codec) except UnicodeError: raise ValueError('unknown charset')`.
Only a UnicodeError is converted to the unknown-charset ValueError; any
other exception (in particular the registry's LookupError) propagates. -/
def select_codec (registry : String → Bool) (codec : String) :
    Except PyErr CodecChoice :=
  if strStarts codec ("JISX0201") then Except.ok CodecChoice.jisx0201
  else if strStarts codec ("JISX0208") then Except.ok CodecChoice.jisx0208
  else
    match pyDecodeEmpty registry codec with
    | Except.ok _ => Except.ok (CodecChoice.pycodec codec)
    | Except.error e =>
      if e == PyErr.unicodeError then Except.error PyErr.valueError
      else Except.error e

/- ===== concrete instances used by the per-claim theorems ===== -/

/-- A narrow glyph (bbx 8x16), first candidate for the C1 scenario. -/
def c1_g1 : Glyph :=
  { gname := ("g1"), encoding := 65, swidth := (500, 0), dwidth := (8, 0),
    bbx := { w := 8, h := 16, xoff := 0, yoff := 0 }, wide := false,
    bits := [[0x18], [0x24]], changed := false }

/-- A second narrow glyph, last candidate for the C1 scenario. -/
def c1_g2 : Glyph :=
  { gname := ("g2"), encoding := 65, swidth := (500, 0), dwidth := (8, 0),
    bbx := { w := 8, h := 16, xoff := 0, yoff := 0 }, wide := false,
    bits := [[0xFF], [0x81]], changed := false }

/-- A narrow glyph whose height is not twice its width (bbx 8x15), breaking
the wide/bbx invariant when widened. -/
def c3_g : Glyph :=
  { gname := ("c3"), encoding := 1, swidth := (500, 0), dwidth := (8, 0),
    bbx := { w := 8, h := 15, xoff := 0, yoff := 0 }, wide := false,
    bits := [[0x00]], changed := false }

/-- A narrow, unchanged glyph for the C4 no-op scenario. -/
def c4_g : Glyph :=
  { gname := ("c4"), encoding := 2, swidth := (500, 0), dwidth := (8, 0),
    bbx := { w := 8, h := 16, xoff := 0, yoff := 0 }, wide := false,
    bits := [[0x3C]], changed := false }

/-- The line text of a BITMAP command. -/
def bitmapLine : String := "BITMAP"

/-- Narrow candidate preceding the match in the C6 witness. -/
def c6_n : Glyph :=
  { gname := ("n"), encoding := 65, swidth := (500, 0), dwidth := (8, 0),
    bbx := { w := 8, h := 16, xoff := 0, yoff := 0 }, wide := false,
    bits := [[0x00]], changed := false }

/-- Wide candidate selected in the C6 witness. -/
def c6_w : Glyph :=
  { gname := ("w"), encoding := 65, swidth := (1000, 0), dwidth := (16, 0),
    bbx := { w := 16, h := 16, xoff := 0, yoff := 0 }, wide := true,
    bits := [[0xFF, 0xFF]], changed := false }

/-- A later wide candidate, never consulted in the C6 witness. -/
def c6_w2 : Glyph :=
  { gname := ("w2"), encoding := 65, swidth := (1000, 0), dwidth := (16, 0),
    bbx := { w := 16, h := 16, xoff := 0, yoff := 0 }, wide := true,
    bits := [[0x00, 0x00]], changed := false }

/-- A wide glyph with an odd swidth for the C7 division counterexample. -/
def c7_neg : Glyph :=
  { gname := ("c7n"), encoding := 3, swidth := (-7, 0), dwidth := (16, 0),
    bbx := { w := 16, h := 16, xoff := 0, yoff := 0 }, wide := true,
    bits := [[0xFF, 0xFF]], changed := false }

/-- A wide glyph with a three-byte row for the C7 witness (odd byte count). -/
def c7_g : Glyph :=
  { gname := ("c7"), encoding := 4, swidth := (1000, 0), dwidth := (24, 0),
    bbx := { w := 24, h := 24, xoff := 0, yoff := 0 }, wide := true,
    bits := [[0xFF, 0x81, 0x3C], [0x00, 0x10, 0x02]], changed := false }

/-- A narrow glyph for the C8 round-trip witness. -/
def c8_g : Glyph :=
  { gname := ("c8"), encoding := 5, swidth := (499, 0), dwidth := (7, 0),
    bbx := { w := 7, h := 16, xoff := 0, yoff := 0 }, wide := false,
    bits := [[0xAA], [0x0F, 0xF0, 0x12]], changed := false }

/-- The file-parser state right after STARTPROPERTIES. -/
def c10_st : FilePropsState := { props := some [], propMode := true }

/- ===================== theorems ===================== -/

/-- Claim C2 (code_bug evaluation): the widening expansion does not expand
the high and the low nibble separately; the inner loop of `expand_bits`
tests the whole input byte `b` instead of the loop variable `i`, so both
output bytes replicate the LOW nibble of the input byte.  On input byte
0xF0 the claim predicts output bytes 0xFF, 0x00; the code yields 0x00,
0x00.  On 0x0F the claim predicts 0x00, 0xFF; the code yields 0xFF, 0xFF. -/
theorem C2_expand_uses_low_nibble_twice :
    expand_bits [0xF0] = [0x00, 0x00] ∧ expand_bits [0x0F] = [0xFF, 0xFF] :=
  ⟨rfl, rfl⟩

/-- Claim C1 (code_bug evaluation): with two candidates, both narrow, and a
Fullwidth classification, no candidate matches; the repair branch then
transcodes the leftover loop variable, which is the LAST candidate of the
list, not the first one the claim (and the program's own header comment)
names. -/
theorem C1_repairs_last_candidate :
    merge_codepoint false (some ("F")) [c1_g1, c1_g2] =
      some (true, c1_g2.adjust true) ∧
    (c1_g2.adjust true).gname = ("g2") ∧
    c1_g2.adjust true ≠ c1_g1.adjust true :=
  ⟨rfl, rfl, by decide⟩

/-- Claim C9 (code_bug evaluation): with an unregistered charset identifier
that matches neither JIS prefix, the codec registry raises LookupError,
which the `except UnicodeError` clause does not catch, so the dedicated
unknown-charset ValueError is never raised; the run aborts with the
propagated LookupError instead. -/
theorem C9_lookup_error_uncaught :
    select_codec (fun _ => false) ("BOGUS-1") = Except.error PyErr.lookupError ∧
    (Except.error PyErr.lookupError : Except PyErr CodecChoice) ≠
      Except.error PyErr.valueError :=
  ⟨rfl, fun h => PyErr.noConfusion (Except.error.inj h)⟩

/-- Claim C10 (code_bug evaluation): feeding the properties handler the same
property name twice succeeds and appends two entries with the same key;
the dedicated `assert cmd not in self.props` never fires because it
compares the command string against (key, value) pairs. -/
theorem C10_duplicate_property_key :
    (do_unknown_file c10_st ("FOUNDRY") ("\"misc\"")).bind
        (fun s1 => do_unknown_file s1 ("FOUNDRY") ("\"other\"")) =
      Except.ok
        { props := some [(("foundry"), PropVal.pstr ("misc")),
                         (("foundry"), PropVal.pstr ("other"))],
          propMode := true } :=
  rfl

/-- Claim C3 counterexample: widening the narrow 8x15 glyph gives bbx 16x15
with `wide = true`, so `wide == (bbx.width == bbx.height)` fails after this
`adjust` call. -/
theorem C3_invariant_broken_by_adjust :
    (c3_g.adjust true).wide = true ∧ (c3_g.adjust true).bbx.w = 16 ∧
    (c3_g.adjust true).bbx.h = 15 ∧
    (c3_g.adjust true).wide ≠
      decide ((c3_g.adjust true).bbx.w = (c3_g.adjust true).bbx.h) :=
  ⟨rfl, rfl, rfl, by decide⟩

/-- Claim C3 (amended): after a BBX line is processed the derived flag does
satisfy `wide == (bbx.width == bbx.height)`; but `adjust` sets `wide` to the
requested target instead of recomputing it from the bounding box, so after a
transcoder call the flag equals the target (and the bbx-squareness invariant
can fail, as the counterexample shows). -/
theorem C3_wide_flag :
    (∀ (s : GlyphParser) (args : String) (a b : Int) (rest : List Int),
        pyInts args = some (a :: b :: rest) →
        s.do_bbx args =
          Except.ok { s with bbx := some (a :: b :: rest), wide := a == b })
    ∧ (∀ (g : Glyph) (t : Bool), (g.adjust t).wide = t) := by
  constructor
  · intro s args a b rest h
    unfold GlyphParser.do_bbx
    rw [h]
  · intro g t
    unfold Glyph.adjust
    split
    · rfl
    · split
      · rfl
      · rfl

/-- Claim C3 witness: a concrete BBX line with equal width and height sets
the wide flag. -/
theorem C3_wide_flag_witness :
    (GlyphParser.init ("g")).do_bbx ("16 16 0 0") =
      Except.ok { GlyphParser.init ("g") with
                    bbx := some ([16, 16, 0, 0] : List Int), wide := true } :=
  C3_wide_flag.1 _ _ 16 16 [0, 0] rfl

/-- Claim C4 counterexample: on a glyph already at the target width,
`adjust` still flips the `changed` flag, so not every field is left
unchanged. -/
theorem C4_changed_set_on_noop :
    c4_g.changed = false ∧ (c4_g.adjust false).changed = true :=
  ⟨rfl, rfl⟩

/-- Claim C4 (amended): when `glyph.wide == target_wide`, `adjust` leaves
every field unchanged EXCEPT `changed`, which is set to true by every
`adjust` call whether or not the glyph was modified. -/
theorem C4_noop_except_changed (g : Glyph) (t : Bool) (h : g.wide = t) :
    g.adjust t = { g with changed := true } := by
  subst h
  cases g
  simp [Glyph.adjust]

/-- Claim C4 witness. -/
theorem C4_noop_witness :
    c4_g.adjust false = { c4_g with changed := true } :=
  C4_noop_except_changed c4_g false rfl

/-- Claim C5 counterexample: after BITMAP opens raw capture, a second BITMAP
line is appended verbatim as a bitmap row; parsing succeeds, no
DuplicateBitmap error is raised. -/
theorem C5_second_bitmap_captured :
    ((GlyphParser.init ("g")).feed bitmapLine).bind
        (fun s => s.feed bitmapLine) =
      Except.ok { GlyphParser.init ("g") with
                    bitmapMode := true, bits := [bitmapLine] } :=
  rfl

/-- Claim C5 (amended): once bitmap capture is open, `feed` appends EVERY
line (the file parser intercepts only ENDCHAR), including a second BITMAP
command line, verbatim to the bitmap rows; the duplicate-bitmap assertion
in `do_bitmap` is unreachable through `feed`. -/
theorem C5_capture_mode_appends (s : GlyphParser) (line : String)
    (h : s.bitmapMode = true) :
    s.feed line = Except.ok { s with bits := s.bits ++ [line] } := by
  unfold GlyphParser.feed
  rw [h]
  simp

/-- Claim C5 witness. -/
theorem C5_capture_witness :
    ({ GlyphParser.init ("g") with bitmapMode := true } : GlyphParser).feed
        bitmapLine =
      Except.ok { GlyphParser.init ("g") with
                    bitmapMode := true, bits := [bitmapLine] } :=
  C5_capture_mode_appends _ _ rfl

/-- The merge loop's `ok` test agrees with the spec-side requirement: it is
exactly "the candidate's wide flag matches the required width" when the
category imposes one, and always true otherwise. -/
theorem glyph_ok_required (aw : Bool) (wid : Option String) (g : Glyph) :
    glyph_ok aw wid g =
      (match required_wide aw wid with
       | some r => g.wide == r
       | none => true) := by
  unfold glyph_ok required_wide
  cases hFW : (wid == some ("F") || wid == some ("W")) <;>
    cases hHN : (wid == some ("H") || wid == some ("Na")) <;>
      cases hA : (wid == some ("A")) <;>
        simp [hFW, hHN, hA]

/-- Candidates failing the `ok` test are skipped by the scan. -/
theorem first_ok_skip (aw : Bool) (wid : Option String) :
    ∀ (pre : List Glyph), (∀ p ∈ pre, glyph_ok aw wid p = false) →
      ∀ (tl : List Glyph), first_ok aw wid (pre ++ tl) = first_ok aw wid tl
  | [], _, _ => rfl
  | p :: pre, h, tl => by
    have hp : glyph_ok aw wid p = false := h p (List.mem_cons_self p pre)
    have hrest : ∀ q ∈ pre, glyph_ok aw wid q = false :=
      fun q hq => h q (List.mem_cons_of_mem p hq)
    simp [first_ok, hp, first_ok_skip aw wid pre hrest tl]

/-- Claim C6: when the classifier category imposes a width requirement, the
merge loop emits the first candidate whose `wide` flag matches it (never a
later one, and it does not warn or transcode); when no requirement applies
(Unclassified or any unrecognized category token) the first candidate is
emitted unconditionally. -/
theorem C6_first_match :
    (∀ (aw : Bool) (wid : Option String) (pre : List Glyph) (g : Glyph)
        (rest : List Glyph) (r : Bool),
        required_wide aw wid = some r →
        (∀ p ∈ pre, p.wide ≠ r) →
        g.wide = r →
        merge_codepoint aw wid (pre ++ g :: rest) = some (false, g))
    ∧ (∀ (aw : Bool) (wid : Option String) (g : Glyph) (rest : List Glyph),
        required_wide aw wid = none →
        merge_codepoint aw wid (g :: rest) = some (false, g)) := by
  constructor
  · intro aw wid pre g rest r hreq hpre hg
    have hok : ∀ p ∈ pre, glyph_ok aw wid p = false := by
      intro p hp
      simp [glyph_ok_required, hreq, hpre p hp]
    have hgok : glyph_ok aw wid g = true := by
      simp [glyph_ok_required, hreq, hg]
    unfold merge_codepoint
    rw [first_ok_skip aw wid pre hok (g :: rest)]
    simp [first_ok, hgok]
  · intro aw wid g rest hreq
    have hgok : glyph_ok aw wid g = true := by
      simp [glyph_ok_required, hreq]
    unfold merge_codepoint
    simp [first_ok, hgok]

/-- Claim C6 witness: category Fullwidth; the narrow first candidate is
skipped, the first wide candidate is emitted, the later wide candidate is
never consulted. -/
theorem C6_first_match_witness :
    merge_codepoint false (some ("F")) [c6_n, c6_w, c6_w2] =
      some (false, c6_w) :=
  C6_first_match.1 false (some ("F")) [c6_n] c6_w [c6_w2] true rfl
    (by decide) rfl

set_option maxHeartbeats 1000000 in
set_option maxRecDepth 4096 in
/-- For byte values, the nibble computed by `shrink_bits` is exactly the
spec's quadrant-OR nibble, and it fits in four bits. -/
theorem shrink_nibble_byte :
    ∀ b : Nat, b < 256 → shrink_nibble b = nibble_spec b ∧ shrink_nibble b < 16 := by
  decide

set_option maxHeartbeats 1000000 in
set_option maxRecDepth 4096 in
/-- Packing a pending nibble with the next one: shift-or equals the
high/low-nibble arithmetic for four-bit values. -/
theorem pack_lor :
    ∀ x : Nat, x < 16 → ∀ y : Nat, y < 16 →
      Nat.lor (Nat.shiftLeft x 4) y = 16 * x + y := by
  decide

theorem shiftLeft4_eq (x : Nat) : Nat.shiftLeft x 4 = 16 * x := by
  show x <<< 4 = 16 * x
  rw [Nat.shiftLeft_eq]
  ring

/-- On rows of byte values, `shrink_bits` computes exactly the spec-side
narrowing transform (quadrant ORs, pairwise nibble packing, lone trailing
nibble in the high bits). -/
theorem shrinkAux_eq_spec :
    ∀ (row : List Nat), (∀ b ∈ row, b < 256) →
      shrinkAux none row = shrink_row_spec row
  | [] => fun _ => rfl
  | [b] => fun h => by
    have hb := shrink_nibble_byte b (h b (by simp))
    show [Nat.shiftLeft (shrink_nibble b) 4] = [16 * nibble_spec b]
    rw [shiftLeft4_eq, hb.1]
  | b :: c :: rest => fun h => by
    have hb := shrink_nibble_byte b (h b (by simp))
    have hc := shrink_nibble_byte c (h c (by simp))
    have hrest : ∀ x ∈ rest, x < 256 := fun x hx => h x (by simp [hx])
    have ih := shrinkAux_eq_spec rest hrest
    show Nat.lor (Nat.shiftLeft (shrink_nibble b) 4) (shrink_nibble c) ::
        shrinkAux none rest =
      (16 * nibble_spec b + nibble_spec c) :: pack_spec (rest.map nibble_spec)
    rw [pack_lor _ hb.2 _ hc.2, hb.1, hc.1, ih]
    rfl

/-- Claim C7 counterexample: the widths are halved with Python's floor
division, not truncating division: on a wide glyph with SWIDTH.x = -7 the
program produces -4, while truncation would give -3 (shown via `Int.div`,
the truncating division). -/
theorem C7_floor_not_truncate :
    (c7_neg.adjust false).swidth.1 = -4 ∧ Int.tdiv (-7) 2 = -3 ∧
    ((-4 : Int) ≠ -3) :=
  ⟨rfl, rfl, by decide⟩

/-- Claim C7 (amended): narrowing halves SWIDTH.x, DWIDTH.x and BBX.width by
FLOOR integer division (Python `//`; equal to truncation for nonnegative
values), and maps every bitmap row by the spec's transform: each input
byte collapses to the nibble of its four quadrant-ORs, consecutive nibble
pairs pack into one byte with the first nibble in the high four bits, and
an odd trailing nibble occupies the high four bits of a final byte with
low bits zero. -/
theorem C7_narrowing (g : Glyph) (hw : g.wide = true)
    (hb : ∀ row ∈ g.bits, ∀ b ∈ row, b < 256) :
    g.adjust false =
      { g with
        swidth := (Int.fdiv g.swidth.1 2, g.swidth.2),
        dwidth := (Int.fdiv g.dwidth.1 2, g.dwidth.2),
        bbx := { g.bbx with w := Int.fdiv g.bbx.w 2 },
        bits := g.bits.map shrink_row_spec,
        wide := false, changed := true } := by
  have hbits : g.bits.map shrink_bits = g.bits.map shrink_row_spec :=
    List.map_congr_left fun row hrow => shrinkAux_eq_spec row (hb row hrow)
  unfold Glyph.adjust
  rw [hw]
  simp [hbits]

/-- Claim C7 witness: a wide glyph with an odd-length row and an even-length
row, consistent bytes. -/
theorem C7_narrowing_witness :
    c7_g.adjust false =
      { c7_g with
        swidth := (Int.fdiv c7_g.swidth.1 2, c7_g.swidth.2),
        dwidth := (Int.fdiv c7_g.dwidth.1 2, c7_g.dwidth.2),
        bbx := { c7_g.bbx with w := Int.fdiv c7_g.bbx.w 2 },
        bits := c7_g.bits.map shrink_row_spec,
        wide := false, changed := true } :=
  C7_narrowing c7_g rfl (by decide)

/-- Each input byte yields two output bytes under widening. -/
theorem expand_bits_len :
    ∀ row : List Nat, (expand_bits row).length = 2 * row.length
  | [] => rfl
  | b :: rest => by
    have ih := expand_bits_len rest
    simp [expand_bits, expand_pair, ih]
    omega

/-- Output length of the narrowing loop: pending-nibble state included. -/
theorem shrinkAux_len :
    ∀ row : List Nat, (shrinkAux none row).length = (row.length + 1) / 2 ∧
      ∀ x : Nat, (shrinkAux (some x) row).length = row.length / 2 + 1
  | [] => ⟨rfl, fun _ => rfl⟩
  | b :: rest => by
    have ih := shrinkAux_len rest
    constructor
    · have h2 := ih.2 (shrink_nibble b)
      show (shrinkAux (some (shrink_nibble b)) rest).length =
        ((b :: rest).length + 1) / 2
      rw [h2, List.length_cons]
      omega
    · intro x
      show (Nat.lor (Nat.shiftLeft x 4) (shrink_nibble b) ::
          shrinkAux none rest).length = (b :: rest).length / 2 + 1
      rw [List.length_cons, List.length_cons, ih.1]

/-- Narrowing undoes the byte-count doubling of widening exactly. -/
theorem shrink_expand_len (row : List Nat) :
    (shrink_bits (expand_bits row)).length = row.length := by
  have h1 := (shrinkAux_len (expand_bits row)).1
  have h2 := expand_bits_len row
  show (shrinkAux none (expand_bits row)).length = row.length
  omega

theorem fdiv_two_double (x : Int) : Int.fdiv (x * 2) 2 = x := by
  rw [Int.fdiv_eq_ediv _ (by norm_num)]
  exact Int.mul_ediv_cancel x (by norm_num)

/-- Claim C8: widening a narrow glyph and then narrowing the result restores
the shape exactly: SWIDTH, DWIDTH and the whole bounding box return to
their original values, and every bitmap row returns to its original byte
count (bit values are not claimed to be restored). -/
theorem C8_shape_roundtrip (g : Glyph) (h : g.wide = false) :
    ((g.adjust true).adjust false).swidth = g.swidth ∧
    ((g.adjust true).adjust false).dwidth = g.dwidth ∧
    ((g.adjust true).adjust false).bbx = g.bbx ∧
    ((g.adjust true).adjust false).bits.map List.length =
      g.bits.map List.length := by
  have h1 : g.adjust true =
      { g with swidth := (g.swidth.1 * 2, g.swidth.2),
               dwidth := (g.dwidth.1 * 2, g.dwidth.2),
               bbx := { g.bbx with w := g.bbx.w * 2 },
               bits := g.bits.map expand_bits,
               changed := true, wide := true } := by
    unfold Glyph.adjust
    rw [h]
    simp
  have hbits : ((g.bits.map expand_bits).map shrink_bits).map List.length =
      g.bits.map List.length := by
    rw [List.map_map, List.map_map]
    exact List.map_congr_left fun row _ => shrink_expand_len row
  rw [h1]
  unfold Glyph.adjust
  simp [fdiv_two_double, hbits]
  exact fun row _ => shrink_expand_len row

/-- Claim C8 witness: a narrow glyph with rows of one and three bytes. -/
theorem C8_shape_roundtrip_witness :
    ((c8_g.adjust true).adjust false).swidth = c8_g.swidth ∧
    ((c8_g.adjust true).adjust false).dwidth = c8_g.dwidth ∧
    ((c8_g.adjust true).adjust false).bbx = c8_g.bbx ∧
    ((c8_g.adjust true).adjust false).bits.map List.length =
      c8_g.bits.map List.length :=
  C8_shape_roundtrip c8_g rfl

end Mk10646
